import Mathlib

/-!
Verification of the savantlab signal-derivation engine.

Shallow embedding of the algorithmic core of the repository:
- stroke segmentation and left/right reversal analysis (analyze_left_right.py),
- kinematic derivation and session aggregation (analysis/metrics.py),
- gaze-state derived metrics (analysis/eye_tracking.py).

Numbers are embedded as exact rationals (floating point is idealised as real
arithmetic throughout, as the specification does). Pandas/NumPy NaN cells are
embedded as `Option` values: `none` is NaN, and every NaN comparison
(NaN > c, NaN < c, NaN == c) is `false`, matching IEEE semantics used by
`np.where` and boolean column tests.
-/

namespace Savant

/-! ## Stroke segmentation (analyze_left_right.py) -/

/-- Event types of the raw stroke event stream. The data model fixes
the event vocabulary to exactly down / move / up (spec section 3:
StrokeEvent.type is one of down, move, up); the Python code compares the
string field against these three literals. -/
inductive EvType where
  | down
  | move
  | up
deriving DecidableEq

/-- Embedding of the StrokeEvent dataclass of analyze_left_right.py. -/
structure StrokeEvent where
  t : ℚ
  type : EvType
  x : ℚ
  y : ℚ
  button : ℤ
  buttons : ℤ
deriving DecidableEq

/-- The loop body of segment_strokes: explicit state passing of the local
variables (strokes, current, drawing) of the Python for-loop, followed by the
final flush of a non-empty buffer. Mirrors lines 35-57 of
analyze_left_right.py exactly: a down always opens a new buffer (flushing a
non-empty old buffer first), move/up are appended only while drawing. -/
def segmentLoop : List StrokeEvent → List (List StrokeEvent) → List StrokeEvent → Bool →
    List (List StrokeEvent)
  | [], strokes, current, _ =>
      if current = [] then strokes else strokes ++ [current]
  | ev :: rest, strokes, current, drawing =>
      match ev.type with
      | .down =>
          segmentLoop rest (if current = [] then strokes else strokes ++ [current]) [ev] true
      | .move =>
          if drawing then segmentLoop rest strokes (current ++ [ev]) drawing
          else segmentLoop rest strokes current drawing
      | .up =>
          if drawing then segmentLoop rest (strokes ++ [current ++ [ev]]) [] false
          else segmentLoop rest strokes current drawing

/-- segment_strokes of analyze_left_right.py. -/
def segment_strokes (events : List StrokeEvent) : List (List StrokeEvent) :=
  segmentLoop events [] [] false

/-- The stateful filter that keeps exactly the events the segmenter does not
ignore: a down is always kept, a move or up is kept iff the machine is
currently drawing (i.e. not idle). The Bool argument is the drawing state. -/
def keptEvents : Bool → List StrokeEvent → List StrokeEvent
  | _, [] => []
  | drawing, ev :: rest =>
      match ev.type with
      | .down => ev :: keptEvents true rest
      | .move => if drawing then ev :: keptEvents drawing rest else keptEvents drawing rest
      | .up => if drawing then ev :: keptEvents false rest else keptEvents drawing rest

lemma segmentLoop_join (evs : List StrokeEvent) :
    ∀ strokes current drawing,
      (segmentLoop evs strokes current drawing).flatten =
        strokes.flatten ++ current ++ keptEvents drawing evs := by
  induction evs with
  | nil =>
      intro strokes current drawing
      by_cases hc : current = [] <;>
        simp [segmentLoop, keptEvents, hc]
  | cons ev rest ih =>
      intro strokes current drawing
      cases hty : ev.type with
      | down =>
          by_cases hc : current = [] <;>
            simp [segmentLoop, keptEvents, hty, hc, ih, List.append_assoc]
      | move =>
          cases drawing <;>
            simp [segmentLoop, keptEvents, hty, ih, List.append_assoc]
      | up =>
          cases drawing <;>
            simp [segmentLoop, keptEvents, hty, ih, List.append_assoc]

/-- C6: concatenating the events of all strokes output by segment_strokes, in
output order, reproduces the original event stream with exactly the ignored
stray events removed; an event is ignored precisely when it is a move or up
arriving while the machine is idle (`keptEvents` drops exactly those, starting
from the idle state). Unmatched-down data is never lost: the equation holds
for arbitrary streams, including those where a down interrupts an open buffer
or the stream ends mid-stroke. -/
theorem segment_strokes_complete (evs : List StrokeEvent) :
    (segment_strokes evs).flatten = keptEvents false evs := by
  simpa [segment_strokes] using segmentLoop_join evs [] [] false

/-- A stroke list whose first event is a down. -/
def startsDown (s : List StrokeEvent) : Prop :=
  ∃ e rest, s = e :: rest ∧ e.type = EvType.down

lemma startsDown_append (s : List StrokeEvent) (e : StrokeEvent) (h : startsDown s) :
    startsDown (s ++ [e]) := by
  rcases h with ⟨e0, r, hs, he0⟩
  exact ⟨e0, r ++ [e], by simp [hs], he0⟩

/-- Machine invariant of the segmentation loop: while drawing the open buffer
starts with a down event, while idle the buffer is empty; every flushed stroke
starts with a down event. -/
lemma segmentLoop_startsDown (evs : List StrokeEvent) :
    ∀ strokes current drawing,
      (∀ s ∈ strokes, startsDown s) →
      (drawing = true → startsDown current) →
      (drawing = false → current = []) →
      ∀ s ∈ segmentLoop evs strokes current drawing, startsDown s := by
  induction evs with
  | nil =>
      intro strokes current drawing hstrokes hdraw hidle s hs
      by_cases hc : current = []
      · simp [segmentLoop, hc] at hs
        exact hstrokes s hs
      · have hcur : startsDown current := by
          cases drawing with
          | false => exact absurd (hidle rfl) hc
          | true => exact hdraw rfl
        simp [segmentLoop, hc] at hs
        rcases hs with hs | hs
        · exact hstrokes s hs
        · exact hs ▸ hcur
  | cons ev rest ih =>
      intro strokes current drawing hstrokes hdraw hidle s hs
      cases hty : ev.type with
      | down =>
          by_cases hc : current = []
          · refine ih _ [ev] true hstrokes (fun _ => ⟨ev, [], rfl, hty⟩) (fun h => nomatch h) s ?_
            simpa [segmentLoop, hty, hc] using hs
          · have hcur : startsDown current := by
              cases drawing with
              | false => exact absurd (hidle rfl) hc
              | true => exact hdraw rfl
            refine ih (strokes ++ [current]) [ev] true ?_ (fun _ => ⟨ev, [], rfl, hty⟩) (fun h => nomatch h) s ?_
            · intro s' hs'
              rcases List.mem_append.mp hs' with h | h
              · exact hstrokes s' h
              · exact (List.mem_singleton.mp h) ▸ hcur
            · simpa [segmentLoop, hty, hc] using hs
      | move =>
          cases drawing with
          | false =>
              refine ih _ current false hstrokes (fun h => nomatch h) hidle s ?_
              simpa [segmentLoop, hty] using hs
          | true =>
              refine ih _ (current ++ [ev]) true hstrokes
                (fun _ => startsDown_append current ev (hdraw rfl)) (fun h => nomatch h) s ?_
              simpa [segmentLoop, hty] using hs
      | up =>
          cases drawing with
          | false =>
              refine ih _ current false hstrokes (fun h => nomatch h) hidle s ?_
              simpa [segmentLoop, hty] using hs
          | true =>
              refine ih (strokes ++ [current ++ [ev]]) [] false ?_ (fun h => nomatch h) (fun _ => rfl) s ?_
              · intro s' hs'
                rcases List.mem_append.mp hs' with h | h
                · exact hstrokes s' h
                · exact (List.mem_singleton.mp h) ▸
                    startsDown_append current ev (hdraw rfl)
              · simpa [segmentLoop, hty] using hs

/-- C10: every stroke output by segment_strokes is non-empty and its first
event has type down: move and up events are only ever appended to a buffer
that a down event opened. -/
theorem segment_strokes_head_down (evs : List StrokeEvent)
    (s : List StrokeEvent) (hs : s ∈ segment_strokes evs) :
    s ≠ [] ∧ s.head?.map StrokeEvent.type = some EvType.down := by
  have h : startsDown s :=
    segmentLoop_startsDown evs [] [] false (by simp) (by simp) (fun _ => rfl) s hs
  rcases h with ⟨e, r, hsr, he⟩
  subst hsr
  simp [he]

/-- Concrete witness for C10: the one-event stream consisting of a single
down event yields the single stroke containing that event. -/
theorem segment_strokes_head_down_witness :
    ([(⟨0, EvType.down, 0, 0, 0, 0⟩ : StrokeEvent)] ∈
        segment_strokes [⟨0, EvType.down, 0, 0, 0, 0⟩]) ∧
      (([(⟨0, EvType.down, 0, 0, 0, 0⟩ : StrokeEvent)] ≠ []) ∧
        ([(⟨0, EvType.down, 0, 0, 0, 0⟩ : StrokeEvent)].head?.map StrokeEvent.type =
          some EvType.down)) :=
  ⟨by decide,
    segment_strokes_head_down [⟨0, EvType.down, 0, 0, 0, 0⟩]
      [⟨0, EvType.down, 0, 0, 0, 0⟩] (by decide)⟩

/-! ## Left/right reversal analysis (analyze_left_right.py, lines 60-105) -/

/-- Result dictionary of analyze_left_right_reversal. initial_dir is
1 = right, -1 = left, 0 = no clear horizontal motion. -/
structure ReversalResult where
  has_reversal : Bool
  initial_dir : ℤ
  reversal_count : ℕ
deriving DecidableEq

/-- Jitter threshold of the dx classification (THRESH = 1.0 in the source). -/
def THRESH : ℚ := 1

/-- Successive horizontal displacements of a stroke:
dx i = x (i+1) - x i, via zip(stroke, stroke[1:]). -/
def strokeDxs (stroke : List StrokeEvent) : List ℚ :=
  (stroke.zip stroke.tail).map fun p => p.2.x - p.1.x

/-- Classification of one dx into right (1), left (-1), neutral (0). -/
def classifyDx (dx : ℚ) : ℤ :=
  if dx > THRESH then 1 else if dx < -THRESH then -1 else 0

/-- The reversal-counting loop: prev_dir is the tracked direction; a zero
(neutral) classification is skipped, a non-neutral classification different
from prev_dir counts one reversal and becomes the new tracked direction. -/
def reversalLoop : ℤ → List ℤ → ℕ
  | _, [] => 0
  | prev, d :: rest =>
      if d = 0 then reversalLoop prev rest
      else if d ≠ prev then 1 + reversalLoop d rest
      else reversalLoop prev rest

/-- analyze_left_right_reversal of analyze_left_right.py; none embeds the
Python None returned for strokes of fewer than 2 events. -/
def analyze_left_right_reversal (stroke : List StrokeEvent) : Option ReversalResult :=
  if stroke.length < 2 then none
  else
    let dirs := (strokeDxs stroke).map classifyDx
    let init_dir := (dirs.find? (fun d => decide (d ≠ 0))).getD 0
    if init_dir = 0 then some ⟨false, 0, 0⟩
    else some ⟨decide (0 < reversalLoop init_dir dirs), init_dir, reversalLoop init_dir dirs⟩

/-- The non-neutral classifications of a stroke, in order. -/
def nonNeutralDirs (stroke : List StrokeEvent) : List ℤ :=
  ((strokeDxs stroke).map classifyDx).filter fun d => decide (d ≠ 0)

/-- Number of adjacent unequal pairs in a list. -/
def adjChanges : List ℤ → ℕ
  | a :: b :: rest => (if b ≠ a then 1 else 0) + adjChanges (b :: rest)
  | _ => 0

lemma find?_eq_head?_filter (p : ℤ → Bool) (l : List ℤ) :
    l.find? p = (l.filter p).head? := by
  induction l with
  | nil => rfl
  | cons a rest ih =>
      by_cases ha : p a
      · rw [List.find?_cons_of_pos _ ha, List.filter_cons_of_pos ha]
        rfl
      · rw [List.find?_cons_of_neg _ ha, List.filter_cons_of_neg ha, ih]

lemma reversalLoop_eq_adjChanges (dirs : List ℤ) :
    ∀ prev, reversalLoop prev dirs =
      adjChanges (prev :: dirs.filter fun d => decide (d ≠ 0)) := by
  induction dirs with
  | nil => intro prev; rfl
  | cons d rest ih =>
      intro prev
      by_cases hd : d = 0
      · simp [reversalLoop, hd, ih]
      · by_cases hdp : d = prev
        · subst hdp
          simp [reversalLoop, hd, ih, adjChanges]
        · simp [reversalLoop, hd, hdp, ih, adjChanges, Ne.symm hdp]

/-- C7: in reversal counting for a stroke with at least 2 events, the result
is fully determined by the subsequence of non-neutral dx classifications:
neutral classifications are skipped and never change the tracked direction,
initial_dir is the first non-neutral classification (0 when there is none),
and reversal_count is exactly the number of adjacent direction changes in the
non-neutral subsequence (each change of tracked direction counts once and
updates the direction). -/
theorem analyze_reversal_spec (stroke : List StrokeEvent) (h : 2 ≤ stroke.length) :
    analyze_left_right_reversal stroke =
      some ⟨decide (0 < adjChanges (nonNeutralDirs stroke)),
            (nonNeutralDirs stroke).headD 0,
            adjChanges (nonNeutralDirs stroke)⟩ := by
  have hlen : ¬ stroke.length < 2 := by omega
  unfold analyze_left_right_reversal
  rw [if_neg hlen]
  have hfind :
      (((strokeDxs stroke).map classifyDx).find? fun d => decide (d ≠ 0)) =
        (nonNeutralDirs stroke).head? := by
    rw [nonNeutralDirs, find?_eq_head?_filter]
  cases hnn : nonNeutralDirs stroke with
  | nil =>
      have hinit : (((strokeDxs stroke).map classifyDx).find? fun d =>
          decide (d ≠ 0)).getD 0 = 0 := by
        rw [hfind, hnn]; rfl
      simp only [hinit, if_pos rfl]
      simp [hnn, adjChanges]
  | cons d tl =>
      have hinit : (((strokeDxs stroke).map classifyDx).find? fun d =>
          decide (d ≠ 0)).getD 0 = d := by
        rw [hfind, hnn]; rfl
      have hdmem : d ∈ ((strokeDxs stroke).map classifyDx).filter
          fun d => decide (d ≠ 0) := by
        rw [← nonNeutralDirs, hnn]; exact List.mem_cons_self d tl
      have hdne : d ≠ 0 := by
        have := List.of_mem_filter hdmem
        simpa using this
      have hloop : reversalLoop d ((strokeDxs stroke).map classifyDx) =
          adjChanges (d :: tl) := by
        rw [reversalLoop_eq_adjChanges, ← nonNeutralDirs, hnn]
        simp [adjChanges]
      simp only [hinit, if_neg hdne, hloop, hnn]
      simp

/-- Concrete witness for C7 (spec example scenario 2): a 6-event stroke whose
dx sequence is [+2, +3, -2, +1/2, -5] with threshold 1.0; the analysis yields
initial_dir = 1, reversal_count = 1, has_reversal = true. -/
def exampleStroke : List StrokeEvent :=
  [⟨0, EvType.down, 0, 0, 0, 1⟩,
   ⟨1, EvType.move, 2, 0, 0, 1⟩,
   ⟨2, EvType.move, 5, 0, 0, 1⟩,
   ⟨3, EvType.move, 3, 0, 0, 1⟩,
   ⟨4, EvType.move, 7/2, 0, 0, 1⟩,
   ⟨5, EvType.up, -3/2, 0, 0, 1⟩]

/-- Witness for C7: the example stroke has at least 2 events and the analysis
returns exactly initial_dir = 1, reversal_count = 1, has_reversal = true. -/
theorem analyze_reversal_spec_witness :
    2 ≤ exampleStroke.length ∧
      analyze_left_right_reversal exampleStroke = some ⟨true, 1, 1⟩ :=
  ⟨by norm_num [exampleStroke],
    (analyze_reversal_spec exampleStroke (by norm_num [exampleStroke])).trans (by
      norm_num [nonNeutralDirs, strokeDxs, classifyDx, THRESH, exampleStroke, adjChanges])⟩

/-! ## Kinematic derivation (analysis/metrics.py)

The input frame is a list of rows; a missing / NaN cell of the x, y or
time_delta_sec column is `none`.  compute_all_metrics first selects pointer
events, drops rows with a missing cell, and then runs the three columnar
passes compute_velocity, compute_acceleration, compute_distance_traveled on
the surviving rows, which by then all have concrete values (`ValidRow`).

Real-valued derived columns that are irrational in general are carried
exactly: speed and the magnitudes are recorded by their squares
(speed = sqrt speed_sq), segment_distance by its square, and
cumulative_distance by the list of squared segment distances whose square
roots it sums; direction (degrees of atan2(velocity_y, velocity_x)) is
determined by the recorded velocity components and is not used by any claim.
-/

/-- One row of a raw session frame (the columns used by the pointer path of
compute_all_metrics). -/
structure RawRow where
  event_type : String
  x : Option ℚ
  y : Option ℚ
  time_delta_sec : Option ℚ
deriving DecidableEq

/-- A row all of whose x, y, time_delta_sec cells are present (the shape of
rows surviving df.dropna(subset=[x_col, y_col, 'time_delta_sec'])). -/
structure ValidRow where
  event_type : String
  x : ℚ
  y : ℚ
  time_delta_sec : ℚ
deriving DecidableEq

/-- The dropna predicate: keep a row iff x, y and time_delta_sec are all
present. -/
def validPos (r : RawRow) : Bool :=
  r.x.isSome && r.y.isSome && r.time_delta_sec.isSome

/-- View a raw row that passed `validPos` as a ValidRow. -/
def RawRow.toValid (r : RawRow) : Option ValidRow :=
  match r.x, r.y, r.time_delta_sec with
  | some xv, some yv, some tv => some ⟨r.event_type, xv, yv, tv⟩
  | _, _, _ => none

/-- Velocity components contributed at a row c with predecessor p:
np.where(dt > 0, dx / dt, 0) per component (metrics.py lines 27-29).
The division happens only under the guard 0 < dt. -/
def velPair (p c : ValidRow) : ℚ × ℚ :=
  ((if 0 < c.time_delta_sec - p.time_delta_sec then
      (c.x - p.x) / (c.time_delta_sec - p.time_delta_sec) else 0),
   (if 0 < c.time_delta_sec - p.time_delta_sec then
      (c.y - p.y) / (c.time_delta_sec - p.time_delta_sec) else 0))

/-- compute_velocity of metrics.py, restricted to the two velocity component
columns it adds. The first row's diff is NaN; NaN > 0 is false, so np.where
yields exactly 0 there. speed and direction are derived from these two
columns pointwise (speed_sq and the atan2 arguments in `metricRows`). -/
def compute_velocity (rows : List ValidRow) : List (ℚ × ℚ) :=
  match rows with
  | [] => []
  | _ :: tail => (0, 0) :: ((rows.zip tail).map fun p => velPair p.1 p.2)

/-- Acceleration components contributed at a (row, velocity) pair c with
predecessor p: np.where(dt > 0, dvelocity / dt, 0) per component
(metrics.py lines 59-61), dt taken from the same time column. -/
def accStep (p c : ValidRow × (ℚ × ℚ)) : ℚ × ℚ :=
  ((if 0 < c.1.time_delta_sec - p.1.time_delta_sec then
      (c.2.1 - p.2.1) / (c.1.time_delta_sec - p.1.time_delta_sec) else 0),
   (if 0 < c.1.time_delta_sec - p.1.time_delta_sec then
      (c.2.2 - p.2.2) / (c.1.time_delta_sec - p.1.time_delta_sec) else 0))

/-- compute_acceleration of metrics.py: the same finite-difference operator
applied to the velocity columns, with the same zero-guard on dt. -/
def compute_acceleration (rows : List ValidRow) (vels : List (ℚ × ℚ)) :
    List (ℚ × ℚ) :=
  match (rows.zip vels) with
  | [] => []
  | _ :: tl => (0, 0) :: (((rows.zip vels).zip tl).map fun p => accStep p.1 p.2)

/-- Squared segment distances of compute_distance_traveled: the first row's
cell is NaN (`none`), row i+1 holds dx^2 + dy^2 (segment_distance is its
square root). -/
def segSqs (rows : List ValidRow) : List (Option ℚ) :=
  match rows with
  | [] => []
  | _ :: tail =>
      none :: ((rows.zip tail).map fun p =>
        some ((p.2.x - p.1.x) ^ 2 + (p.2.y - p.1.y) ^ 2))

/-- segment_distance.fillna(0).cumsum(): each cell of cumulative_distance is
the sum of the square roots of the radicands accumulated so far (a NaN
segment cell is filled with 0 and contributes nothing). -/
def cumRadicands : List ℚ → List (Option ℚ) → List (List ℚ)
  | _, [] => []
  | acc, c :: rest =>
      match c with
      | some r => (acc ++ [r]) :: cumRadicands (acc ++ [r]) rest
      | none => acc :: cumRadicands acc rest

/-- One fully derived row of the metrics frame. -/
structure MetricRow where
  base : ValidRow
  velocity_x : ℚ
  velocity_y : ℚ
  speed_sq : ℚ
  acceleration_x : ℚ
  acceleration_y : ℚ
  acceleration_magnitude_sq : ℚ
  segment_distance_sq : Option ℚ
  cumulative_distance_radicands : List ℚ
deriving DecidableEq

/-- Assembly of the derived frame produced by the three passes of
compute_all_metrics on the surviving rows. -/
def metricRows (valid : List ValidRow) : List MetricRow :=
  ((valid.zip (compute_velocity valid)).zip
      ((compute_acceleration valid (compute_velocity valid)).zip
        ((segSqs valid).zip (cumRadicands [] (segSqs valid))))).map fun p =>
    { base := p.1.1
      velocity_x := p.1.2.1
      velocity_y := p.1.2.2
      speed_sq := p.1.2.1 ^ 2 + p.1.2.2 ^ 2
      acceleration_x := p.2.1.1
      acceleration_y := p.2.1.2
      acceleration_magnitude_sq := p.2.1.1 ^ 2 + p.2.1.2 ^ 2
      segment_distance_sq := p.2.2.1
      cumulative_distance_radicands := p.2.2.2 }

/-- Result of compute_all_metrics: either the frame returned before any
metric column is added (the early returns), or the fully derived frame. -/
inductive MetricsResult where
  | raw (rows : List RawRow)
  | metrics (rows : List MetricRow)
deriving DecidableEq

/-- Number of rows of the returned frame. -/
def MetricsResult.length : MetricsResult → ℕ
  | .raw rows => rows.length
  | .metrics rows => rows.length

/-- Pointer event types of data_loader.get_pointer_events. -/
def pointer_types : List String :=
  ["mouseMoved", "leftMouseDragged", "rightMouseDragged", "otherMouseDragged"]

/-- Embedding of data_loader.SessionData: the loaded frame plus the session
identifier and start time extracted at load time. -/
structure SessionData where
  session_id : String
  start_time : ℚ
  df : List RawRow
deriving DecidableEq

/-- SessionData.get_pointer_events. -/
def get_pointer_events (s : SessionData) : List RawRow :=
  s.df.filter fun r => decide (r.event_type ∈ pointer_types)

/-- The rows surviving the dropna step of compute_all_metrics (pointer
path). -/
def droppedRows (s : SessionData) : List RawRow :=
  (get_pointer_events s).filter validPos

/-- The body of compute_all_metrics after event selection: the empty check,
the dropna step, the length check, then the three metric passes. -/
def metricsCore (df : List RawRow) : MetricsResult :=
  if df = [] then .raw df
  else
    let dff := df.filter validPos
    if dff.length < 2 then .raw dff
    else .metrics (metricRows (dff.filterMap RawRow.toValid))

/-- compute_all_metrics of metrics.py for the default pointer event family
(the other families differ only in the selection filter and column names).
Total by construction: every branch returns a frame, none raises. -/
def compute_all_metrics (s : SessionData) : MetricsResult :=
  metricsCore (get_pointer_events s)

lemma zip_getElem? {α β : Type} (l1 : List α) (l2 : List β) :
    ∀ i : ℕ, (l1.zip l2)[i]? =
      (l1[i]?).bind fun a => (l2[i]?).map fun b => (a, b) := by
  induction l1 generalizing l2 with
  | nil => intro i; simp
  | cons a l1 ih =>
      intro i
      cases l2 with
      | nil => simp
      | cons b l2 =>
          cases i with
          | zero => simp
          | succ i => simpa using ih l2 i

lemma length_compute_velocity (rows : List ValidRow) :
    (compute_velocity rows).length = rows.length := by
  cases rows with
  | nil => rfl
  | cons r tail => simp [compute_velocity]

lemma compute_velocity_getElem?_succ (rows : List ValidRow) (i : ℕ)
    (p c : ValidRow) (hp : rows[i]? = some p) (hc : rows[i + 1]? = some c) :
    (compute_velocity rows)[i + 1]? = some (velPair p c) := by
  cases rows with
  | nil => simp at hp
  | cons r tail =>
      have htail : tail[i]? = some c := by simpa using hc
      simp only [compute_velocity, List.getElem?_cons_succ, List.getElem?_map,
        zip_getElem?, hp, htail, Option.bind_some, Option.map_some]
      rfl

lemma compute_acceleration_getElem?_succ (rows : List ValidRow)
    (vels : List (ℚ × ℚ)) (i : ℕ) (p c : ValidRow × (ℚ × ℚ))
    (hp : (rows.zip vels)[i]? = some p) (hc : (rows.zip vels)[i + 1]? = some c) :
    (compute_acceleration rows vels)[i + 1]? = some (accStep p c) := by
  rcases hz : rows.zip vels with _ | ⟨q, tl⟩
  · rw [hz] at hp; simp at hp
  · have htl : tl[i]? = some c := by
      have := hc
      rw [hz] at this
      simpa using this
    rw [hz] at hp
    simp only [compute_acceleration, hz, List.getElem?_cons_succ, List.getElem?_map,
      zip_getElem?, hp, htl, Option.bind_some, Option.map_some]
    rfl

/-- C5: at any index whose time delta to the previous surviving row is zero
or negative, both velocity components and both acceleration components are
exactly 0 (never NaN or infinite: the division by dt happens only under the
strict guard 0 < dt, and the np.where fallback is the literal 0). -/
theorem zero_dt_velocity_acceleration (rows : List ValidRow) (i : ℕ)
    (p c : ValidRow) (hp : rows[i]? = some p) (hc : rows[i + 1]? = some c)
    (hdt : c.time_delta_sec ≤ p.time_delta_sec) :
    (compute_velocity rows)[i + 1]? = some (0, 0) ∧
      (compute_acceleration rows (compute_velocity rows))[i + 1]? = some (0, 0) := by
  have hguard : ¬ (0 < c.time_delta_sec - p.time_delta_sec) := by
    intro h
    exact absurd hdt (by linarith)
  have hvel : (compute_velocity rows)[i + 1]? = some (0, 0) := by
    rw [compute_velocity_getElem?_succ rows i p c hp hc]
    simp [velPair, hguard]
  refine ⟨hvel, ?_⟩
  have hvp : ∃ vp, (compute_velocity rows)[i]? = some vp := by
    have hlt : i < rows.length := List.getElem?_eq_some_iff.mp hp |>.choose_spec |> fun _ => by
      have := List.getElem?_eq_some_iff.mp hp
      exact this.choose
    exact ⟨(compute_velocity rows).get ⟨i, by rw [length_compute_velocity]; exact hlt⟩, by
      simp [List.getElem?_eq_getElem]⟩
  rcases hvp with ⟨vp, hvpeq⟩
  have hzp : (rows.zip (compute_velocity rows))[i]? = some (p, vp) := by
    rw [zip_getElem?, hp, hvpeq]; rfl
  have hzc : (rows.zip (compute_velocity rows))[i + 1]? = some (c, (0, 0)) := by
    rw [zip_getElem?, hc, hvel]; rfl
  rw [compute_acceleration_getElem?_succ rows (compute_velocity rows) i (p, vp)
    (c, (0, 0)) hzp hzc]
  simp [accStep, hguard]

/-- Witness for C5: two surviving rows with equal timestamps (both 5); the
velocity and acceleration components at index 1 are exactly (0, 0). -/
theorem zero_dt_velocity_acceleration_witness :
    ([(⟨"mouseMoved", 0, 0, 5⟩ : ValidRow), ⟨"mouseMoved", 3, 4, 5⟩][0]? =
        some ⟨"mouseMoved", 0, 0, 5⟩) ∧
      ([(⟨"mouseMoved", 0, 0, 5⟩ : ValidRow), ⟨"mouseMoved", 3, 4, 5⟩][1]? =
        some ⟨"mouseMoved", 3, 4, 5⟩) ∧
      ((5 : ℚ) ≤ 5) ∧
      ((compute_velocity [⟨"mouseMoved", 0, 0, 5⟩, ⟨"mouseMoved", 3, 4, 5⟩])[1]? =
          some (0, 0) ∧
        (compute_acceleration [⟨"mouseMoved", 0, 0, 5⟩, ⟨"mouseMoved", 3, 4, 5⟩]
            (compute_velocity [⟨"mouseMoved", 0, 0, 5⟩, ⟨"mouseMoved", 3, 4, 5⟩]))[1]? =
          some (0, 0)) :=
  ⟨rfl, rfl, le_refl 5,
    zero_dt_velocity_acceleration [⟨"mouseMoved", 0, 0, 5⟩, ⟨"mouseMoved", 3, 4, 5⟩]
      0 ⟨"mouseMoved", 0, 0, 5⟩ ⟨"mouseMoved", 3, 4, 5⟩ rfl rfl (le_refl 5)⟩

/-! ### C2: degenerate input -/

/-- C2 amended: an input with fewer than 2 rows surviving the dropna step
makes compute_all_metrics return exactly those surviving rows with no derived
column attached (`MetricsResult.raw`): an empty frame when nothing survives,
but a one-row frame (not an empty one) when exactly one valid sample
survives. The embedding is total, so no exception is raised on any input. -/
theorem degenerate_returns_filtered (s : SessionData)
    (h : (droppedRows s).length < 2) :
    compute_all_metrics s = .raw (droppedRows s) := by
  unfold compute_all_metrics metricsCore
  by_cases hdf : get_pointer_events s = []
  · simp [hdf, droppedRows]
  · rw [if_neg hdf, if_pos (by exact h)]
    rfl

/-- A session whose frame holds exactly one pointer row with x, y and
time_delta_sec all present. -/
def sOne : SessionData :=
  ⟨"session-one", 0, [⟨"mouseMoved", some 1, some 2, some 0⟩]⟩

/-- Counterexample for C2 as stated: for a series with exactly one valid
sample, compute_all_metrics does not return an empty series: it returns the
one surviving row (a frame of length 1 with no derived columns). -/
theorem single_sample_not_empty :
    compute_all_metrics sOne =
        .raw [⟨"mouseMoved", some 1, some 2, some 0⟩] ∧
      (compute_all_metrics sOne).length = 1 := by
  constructor <;> rfl

/-- Witness for the amended C2 at the same concrete input. -/
theorem degenerate_returns_filtered_witness :
    (droppedRows sOne).length < 2 ∧ compute_all_metrics sOne = .raw (droppedRows sOne) :=
  ⟨by decide, degenerate_returns_filtered sOne (by decide)⟩

/-! ### C1: samples with missing position/time -/

lemma metricsCore_drop_invalid (A B : List RawRow) (bad : RawRow)
    (hbad : validPos bad = false) :
    metricsCore (A ++ bad :: B) = metricsCore (A ++ B) := by
  have hfil : (A ++ bad :: B).filter validPos = (A ++ B).filter validPos := by
    simp [List.filter_append, List.filter_cons, hbad]
  by_cases h2 : A ++ B = []
  · rcases List.append_eq_nil.mp h2 with ⟨hA, hB⟩
    subst hA; subst hB
    simp [metricsCore, hbad]
  · have h1 : A ++ bad :: B ≠ [] := by
      intro hcontra
      rcases List.append_eq_nil.mp hcontra with ⟨_, hcons⟩
      exact List.cons_ne_nil _ _ hcons
    simp only [metricsCore, if_neg h1, if_neg h2, hfil]

/-- C1 amended: a sample with missing x, y or time_delta_sec is dropped
before derivation and is entirely invisible to it: the derived result equals
the result of the series without that sample. In particular the derivative
chain does NOT break at the gap: velocity, acceleration and segment distance
at the first surviving sample after the gap are computed by differencing it
against the last surviving sample before the gap. -/
theorem dropped_sample_invisible (pre post : List RawRow) (bad : RawRow)
    (hbad : validPos bad = false) (sid : String) (st : ℚ) :
    compute_all_metrics ⟨sid, st, pre ++ bad :: post⟩ =
      compute_all_metrics ⟨sid, st, pre ++ post⟩ := by
  unfold compute_all_metrics
  by_cases hP : decide (bad.event_type ∈ pointer_types) = true
  · have hga : get_pointer_events ⟨sid, st, pre ++ bad :: post⟩ =
        (pre.filter fun r => decide (r.event_type ∈ pointer_types)) ++ bad ::
          (post.filter fun r => decide (r.event_type ∈ pointer_types)) := by
      simp [get_pointer_events, List.filter_append, List.filter_cons, hP]
    have hgb : get_pointer_events ⟨sid, st, pre ++ post⟩ =
        (pre.filter fun r => decide (r.event_type ∈ pointer_types)) ++
          (post.filter fun r => decide (r.event_type ∈ pointer_types)) := by
      simp [get_pointer_events, List.filter_append]
    rw [hga, hgb, metricsCore_drop_invalid _ _ bad hbad]
  · have hga : get_pointer_events ⟨sid, st, pre ++ bad :: post⟩ =
        get_pointer_events ⟨sid, st, pre ++ post⟩ := by
      simp [get_pointer_events, List.filter_append, List.filter_cons, hP]
    rw [hga]

/-- The session of the C1 counterexample: a valid sample at t = 0, then a
sample with missing x, then a valid sample at t = 2. -/
def sGap : SessionData :=
  ⟨"session-gap", 0,
    [⟨"mouseMoved", some 0, some 0, some 0⟩,
     ⟨"mouseMoved", none, some 5, some 1⟩,
     ⟨"mouseMoved", some 10, some 10, some 2⟩]⟩

/-- Counterexample for C1 as stated: on sGap the derivation outputs two rows,
and the second one (the valid sample immediately after the missing one) DOES
carry a velocity, an acceleration and a segment distance obtained by
differencing it against the valid sample immediately before the missing one:
velocity = ((10-0)/(2-0), (10-0)/(2-0)) = (5, 5) (nonzero), acceleration
= (5/2, 5/2), squared segment distance 10^2 + 10^2 = 200. The derivative
chain bridges the gap instead of breaking. -/
theorem gap_bridged_counterexample :
    compute_all_metrics sGap =
      .metrics
        [{ base := ⟨"mouseMoved", 0, 0, 0⟩, velocity_x := 0, velocity_y := 0,
           speed_sq := 0, acceleration_x := 0, acceleration_y := 0,
           acceleration_magnitude_sq := 0, segment_distance_sq := none,
           cumulative_distance_radicands := [] },
         { base := ⟨"mouseMoved", 10, 10, 2⟩, velocity_x := 5, velocity_y := 5,
           speed_sq := 50, acceleration_x := 5 / 2, acceleration_y := 5 / 2,
           acceleration_magnitude_sq := 25 / 2, segment_distance_sq := some 200,
           cumulative_distance_radicands := [200] }] := by
  have h0 : compute_all_metrics sGap =
      .metrics (metricRows [⟨"mouseMoved", 0, 0, 0⟩, ⟨"mouseMoved", 10, 10, 2⟩]) := rfl
  rw [h0]
  norm_num [metricRows, compute_velocity, compute_acceleration, segSqs,
    cumRadicands, velPair, accStep, List.zip_cons_cons]

/-- Witness for the amended C1 at the sGap data: inserting the invalid
middle sample leaves the derived result unchanged. -/
theorem dropped_sample_invisible_witness :
    validPos ⟨"mouseMoved", none, some 5, some 1⟩ = false ∧
      compute_all_metrics sGap =
        compute_all_metrics ⟨"session-gap", 0,
          [⟨"mouseMoved", some 0, some 0, some 0⟩,
           ⟨"mouseMoved", some 10, some 10, some 2⟩]⟩ :=
  ⟨rfl,
    dropped_sample_invisible [⟨"mouseMoved", some 0, some 0, some 0⟩]
      [⟨"mouseMoved", some 10, some 10, some 2⟩]
      ⟨"mouseMoved", none, some 5, some 1⟩ rfl "session-gap" 0⟩

/-! ## Session aggregation (metrics.py: session_statistics, compare_sessions)

session_statistics reduces a frame to a dict of scalar statistics.  Derived
statistics whose values are irrational reals (mean/max/median of speed,
mean/max of acceleration magnitude, total distance) are functions of a single
column of the frame; the embedding records that column exactly (as squared
values / radicand lists) rather than an approximation of the reduction.
-/

/-- Values of an optional column with NaN cells dropped (pandas skipna). -/
def colVals (l : List (Option ℚ)) : List ℚ := l.filterMap id

/-- pandas .max() over the present values (NaN when no value). -/
def qMax : List ℚ → Option ℚ
  | [] => none
  | a :: rest => some (rest.foldl max a)

/-- pandas .min() over the present values (NaN when no value). -/
def qMin : List ℚ → Option ℚ
  | [] => none
  | a :: rest => some (rest.foldl min a)

/-- pandas .mean() over the present values (NaN when no value). -/
def qMean (l : List ℚ) : Option ℚ :=
  if l = [] then none else some (l.sum / l.length)

/-- The statistics dict built by session_statistics for a non-empty frame.
total_events, duration_sec and the position statistics are rational-valued
and computed outright; the speed / acceleration / distance statistics are
real-valued reductions (mean, max, median) of the recorded column:
speed = sqrt of each entry of speed_col_sqs, acceleration magnitude = sqrt of
each entry of acceleration_col_sqs, cumulative distance = sum of square roots
of each entry of distance_col_radicands.  A `none` column is one absent from
the frame (the Python code skips those statistics). -/
structure SessionStats where
  total_events : ℕ
  duration_sec : Option ℚ
  x_range : Option ℚ × Option ℚ
  y_range : Option ℚ × Option ℚ
  x_mean : Option ℚ
  y_mean : Option ℚ
  speed_col_sqs : Option (List ℚ)
  acceleration_col_sqs : Option (List ℚ)
  distance_col_radicands : Option (List (List ℚ))
deriving DecidableEq

/-- session_statistics of metrics.py: `{}` (here `none`) for an empty frame,
otherwise the statistics record; speed / acceleration / distance statistics
are included only when the frame carries those derived columns. -/
def session_statistics : MetricsResult → Option SessionStats
  | .raw rows =>
      if rows = [] then none
      else some
        { total_events := rows.length
          duration_sec := qMax (colVals (rows.map RawRow.time_delta_sec))
          x_range := (qMin (colVals (rows.map RawRow.x)),
                      qMax (colVals (rows.map RawRow.x)))
          y_range := (qMin (colVals (rows.map RawRow.y)),
                      qMax (colVals (rows.map RawRow.y)))
          x_mean := qMean (colVals (rows.map RawRow.x))
          y_mean := qMean (colVals (rows.map RawRow.y))
          speed_col_sqs := none
          acceleration_col_sqs := none
          distance_col_radicands := none }
  | .metrics rows =>
      if rows = [] then none
      else some
        { total_events := rows.length
          duration_sec := qMax (rows.map fun r => r.base.time_delta_sec)
          x_range := (qMin (rows.map fun r => r.base.x),
                      qMax (rows.map fun r => r.base.x))
          y_range := (qMin (rows.map fun r => r.base.y),
                      qMax (rows.map fun r => r.base.y))
          x_mean := qMean (rows.map fun r => r.base.x)
          y_mean := qMean (rows.map fun r => r.base.y)
          speed_col_sqs := some (rows.map MetricRow.speed_sq)
          acceleration_col_sqs := some (rows.map MetricRow.acceleration_magnitude_sq)
          distance_col_radicands := some (rows.map MetricRow.cumulative_distance_radicands) }

/-- One row of the comparison table of compare_sessions: the session
statistics dict with session_id and start_time added. -/
structure ComparisonRow where
  stats : Option SessionStats
  session_id : String
  start_time : ℚ
deriving DecidableEq

/-- compare_sessions of metrics.py (default pointer event family): one row
per supplied session, appended in the order the sessions are supplied; the
function contains no sorting step. -/
def compare_sessions (sessions : List SessionData) : List ComparisonRow :=
  sessions.map fun s =>
    { stats := session_statistics (compute_all_metrics s)
      session_id := s.session_id
      start_time := s.start_time }

/-- C3 amended: the rows of the comparison table are in the order the
sessions are supplied, one row per session, each carrying its session id and
start time; the table is sorted by start time only when the caller already
supplies the sessions in that order (the sorting step the spec describes
lives in process_all_sessions.generate_summary_report, outside
compare_sessions). -/
theorem compare_sessions_input_order (sessions : List SessionData) :
    (compare_sessions sessions).map ComparisonRow.start_time =
        sessions.map SessionData.start_time ∧
      (compare_sessions sessions).map ComparisonRow.session_id =
        sessions.map SessionData.session_id := by
  constructor <;> simp [compare_sessions, List.map_map]

/-- A session supplied first whose start time is later. -/
def sLate : SessionData := ⟨"session-late", 5, []⟩

/-- A session supplied second whose start time is earlier. -/
def sEarly : SessionData := ⟨"session-early", 3, []⟩

/-- Counterexample for C3 as stated: supplying the later session first makes
compare_sessions emit the rows with start times [5, 3], which is not ordered
by session start time ascending: compare_sessions preserves input order and
does not sort. -/
theorem compare_sessions_not_sorted :
    (compare_sessions [sLate, sEarly]).map ComparisonRow.start_time = [5, 3] ∧
      ¬ List.Chain' (fun a b => a.start_time ≤ b.start_time)
        (compare_sessions [sLate, sEarly]) := by
  constructor
  · rfl
  · intro hchain
    have h53 : (5 : ℚ) ≤ 3 := by
      simpa [compare_sessions, sLate, sEarly] using
        (List.chain'_cons.mp hchain).1
    norm_num at h53

/-! ## Gaze-state derived metrics (analysis/eye_tracking.py)

EyeTracker._add_derived_metrics adds blink, saccade, fixation and grouping
columns to the per-frame table.  gaze_velocity is the Euclidean norm
sqrt(dx^2 + dy^2) of the frame-to-frame gaze difference; the embedding
carries its square.  Since the square root is strictly monotone on
nonnegative reals and both thresholds are positive, the source comparisons
gaze_velocity > 0.01 and gaze_velocity < 0.002 hold exactly when the squared
velocity compares against the squared threshold, which is how they are
embedded.  A NaN velocity (first frame, or missing gaze) compares false.
-/

/-- One row of the EyeMetrics frame handed to _add_derived_metrics. -/
structure EyeFrame where
  timestamp : ℚ
  frame_number : ℕ
  left_eye_openness : ℚ
  right_eye_openness : ℚ
  left_pupil_x : ℚ
  left_pupil_y : ℚ
  right_pupil_x : ℚ
  right_pupil_y : ℚ
  gaze_x : Option ℚ
  gaze_y : Option ℚ
  is_blinking : Bool
deriving DecidableEq

/-- blink_event column: is_blinking.astype(int).diff().eq(1): 1 exactly at a
rising edge of is_blinking (previous frame false, current frame true); the
first frame's diff is NaN, and NaN.eq(1) is false, so its event is 0. -/
def blink_events (frames : List EyeFrame) : List ℕ :=
  match frames with
  | [] => []
  | _ :: tail =>
      0 :: ((frames.zip tail).map fun p =>
        if p.2.is_blinking && !p.1.is_blinking then 1 else 0)

/-- Inclusive running sum (pandas .cumsum()) starting from an accumulator. -/
def cumsum : ℕ → List ℕ → List ℕ
  | _, [] => []
  | acc, a :: rest => (acc + a) :: cumsum (acc + a) rest

/-- blink_count column: blink_event.cumsum(). -/
def blink_count (frames : List EyeFrame) : List ℕ :=
  cumsum 0 (blink_events frames)

/-- blink_rate column: trailing rolling sum of blink_event over a window of
30 frames, min_periods = 1. -/
def blink_rate (frames : List EyeFrame) : List ℕ :=
  (List.range (blink_events frames).length).map fun i =>
    ((((blink_events frames).take (i + 1)).drop (i + 1 - 30))).sum

/-- Squared gaze velocity column: gaze_x.diff().abs() and gaze_y.diff().abs()
combined as dx^2 + dy^2 (gaze_velocity is its square root); the first frame
and any frame whose own or previous gaze is missing get NaN. -/
def gaze_velocity_sqs (frames : List EyeFrame) : List (Option ℚ) :=
  match frames with
  | [] => []
  | _ :: tail =>
      none :: ((frames.zip tail).map fun p =>
        match p.1.gaze_x, p.1.gaze_y, p.2.gaze_x, p.2.gaze_y with
        | some px, some py, some cx, some cy =>
            some ((cx - px) ^ 2 + (cy - py) ^ 2)
        | _, _, _, _ => none)

/-- saccade_threshold = 0.01 of _add_derived_metrics. -/
def saccade_threshold : ℚ := 1 / 100

/-- fixation_threshold = 0.002 of _add_derived_metrics. -/
def fixation_threshold : ℚ := 1 / 500

/-- gaze_velocity > saccade_threshold on one cell: for a present squared
velocity v this is sqrt v > 0.01, i.e. v > 0.01 ^ 2; NaN compares false. -/
def isSaccadeOf : Option ℚ → Bool
  | some vsq => decide (saccade_threshold ^ 2 < vsq)
  | none => false

/-- gaze_velocity < fixation_threshold on one cell: for a present squared
velocity v this is sqrt v < 0.002, i.e. v < 0.002 ^ 2; NaN compares false. -/
def isFixationOf : Option ℚ → Bool
  | some vsq => decide (vsq < fixation_threshold ^ 2)
  | none => false

/-- is_saccade column (the source stores it as an int 0/1 column). -/
def is_saccade (frames : List EyeFrame) : List Bool :=
  (gaze_velocity_sqs frames).map isSaccadeOf

/-- is_fixation column (the source stores it as an int 0/1 column). -/
def is_fixation (frames : List EyeFrame) : List Bool :=
  (gaze_velocity_sqs frames).map isFixationOf

/-- Inner loop of the fixation_group column: run-length group ids, a new id
whenever the is_fixation flag differs from the previous frame. -/
def fixGroupLoop : ℕ → Bool → List Bool → List ℕ
  | _, _, [] => []
  | gid, prev, b :: rest =>
      if b ≠ prev then (gid + 1) :: fixGroupLoop (gid + 1) b rest
      else gid :: fixGroupLoop gid b rest

/-- fixation_group column: (is_fixation.diff() != 0).cumsum(); the first
frame's diff is NaN != 0, true, so ids start at 1. -/
def fixation_groups (frames : List EyeFrame) : List ℕ :=
  match is_fixation frames with
  | [] => []
  | b :: rest => 1 :: fixGroupLoop 1 b rest

/-- fixation_duration column: every frame of a fixation run gets the run's
frame count, frames outside a fixation run get 0 (sizes of groups with
is_fixation == 1, mapped over fixation_group, fillna(0)). -/
def fixation_durations (frames : List EyeFrame) : List ℕ :=
  ((fixation_groups frames).zip (is_fixation frames)).map fun p =>
    if p.2 then (fixation_groups frames).count p.1 else 0

lemma gaze_velocity_sqs_length (frames : List EyeFrame) :
    (gaze_velocity_sqs frames).length = frames.length := by
  cases frames with
  | nil => rfl
  | cons f tail => simp [gaze_velocity_sqs]

/-- C8: no frame is classified simultaneously as saccade and fixation (the
squared thresholds satisfy 0.002 ^ 2 < 0.01 ^ 2); the first frame, whose
velocity is undefined (NaN), is neither; and any frame whose gaze velocity
lies in the dead zone [0.002, 0.01] - squared velocity in
[0.002 ^ 2, 0.01 ^ 2] - is neither saccade nor fixation. -/
theorem saccade_fixation_disjoint (frames : List EyeFrame) (i : ℕ) :
    (¬ ((is_saccade frames)[i]? = some true ∧ (is_fixation frames)[i]? = some true)) ∧
      (frames ≠ [] →
        (is_saccade frames)[0]? = some false ∧ (is_fixation frames)[0]? = some false) ∧
      (∀ vsq : ℚ, (gaze_velocity_sqs frames)[i]? = some (some vsq) →
        fixation_threshold ^ 2 ≤ vsq → vsq ≤ saccade_threshold ^ 2 →
        (is_saccade frames)[i]? = some false ∧ (is_fixation frames)[i]? = some false) := by
  refine ⟨?_, ?_, ?_⟩
  · rintro ⟨hsac, hfix⟩
    rw [is_saccade, List.getElem?_map] at hsac
    rw [is_fixation, List.getElem?_map] at hfix
    rcases hv : (gaze_velocity_sqs frames)[i]? with _ | v
    · rw [hv] at hsac; simp at hsac
    · rw [hv] at hsac hfix
      simp only [Option.map_some, Option.map_some', Option.some.injEq] at hsac hfix
      rcases v with _ | vsq
      · simp [isSaccadeOf] at hsac
      · have h1 : saccade_threshold ^ 2 < vsq := by
          have := hsac
          simpa [isSaccadeOf] using this
        have h2 : vsq < fixation_threshold ^ 2 := by
          have := hfix
          simpa [isFixationOf] using this
        have : fixation_threshold ^ 2 < saccade_threshold ^ 2 := by
          norm_num [fixation_threshold, saccade_threshold]
        linarith
  · intro hne
    rcases frames with _ | ⟨f, tail⟩
    · exact absurd rfl hne
    · constructor <;> simp [is_saccade, is_fixation, gaze_velocity_sqs,
        isSaccadeOf, isFixationOf]
  · intro vsq hv hlow hhigh
    constructor
    · rw [is_saccade, List.getElem?_map, hv]
      have : ¬ saccade_threshold ^ 2 < vsq := by linarith
      simp [isSaccadeOf, this]
    · rw [is_fixation, List.getElem?_map, hv]
      have : ¬ vsq < fixation_threshold ^ 2 := by linarith
      simp [isFixationOf, this]

/-- A gaze frame with the given blink flag and gaze x (other fields
inessential), used by the concrete eye-tracking witnesses. -/
def frameAt (b : Bool) (gx : ℚ) : EyeFrame :=
  ⟨0, 0, 1, 1, 0, 0, 0, 0, some gx, some 0, b⟩

/-- Witness for C8: two frames whose gaze moves by 1/200 = 0.005; the squared
velocity 1/40000 lies in the squared dead zone, and frame 1 is classified
neither saccade nor fixation; frame 0 is also neither. -/
theorem saccade_fixation_disjoint_witness :
    (([frameAt false 0, frameAt false (1 / 200)] : List EyeFrame) ≠ []) ∧
      ((gaze_velocity_sqs [frameAt false 0, frameAt false (1 / 200)])[1]? =
        some (some (1 / 40000))) ∧
      (fixation_threshold ^ 2 ≤ (1 / 40000 : ℚ)) ∧
      ((1 / 40000 : ℚ) ≤ saccade_threshold ^ 2) ∧
      ((is_saccade [frameAt false 0, frameAt false (1 / 200)])[0]? = some false ∧
        (is_fixation [frameAt false 0, frameAt false (1 / 200)])[0]? = some false) ∧
      ((is_saccade [frameAt false 0, frameAt false (1 / 200)])[1]? = some false ∧
        (is_fixation [frameAt false 0, frameAt false (1 / 200)])[1]? = some false) := by
  have hgv : (gaze_velocity_sqs [frameAt false 0, frameAt false (1 / 200)])[1]? =
      some (some (1 / 40000)) := by
    norm_num [gaze_velocity_sqs, frameAt]
  refine ⟨by simp, hgv, by norm_num [fixation_threshold],
    by norm_num [saccade_threshold], ?_, ?_⟩
  · exact (saccade_fixation_disjoint [frameAt false 0, frameAt false (1 / 200)] 0).2.1
      (by simp)
  · exact (saccade_fixation_disjoint [frameAt false 0, frameAt false (1 / 200)] 1).2.2
      (1 / 40000) hgv (by norm_num [fixation_threshold])
      (by norm_num [saccade_threshold])

lemma cumsum_getElem?_zero (l : List ℕ) (acc : ℕ) :
    (cumsum acc l)[0]? = (l[0]?).map (acc + ·) := by
  cases l <;> simp [cumsum]

lemma cumsum_getElem?_succ (l : List ℕ) :
    ∀ (acc i : ℕ) (a : ℕ), (cumsum acc l)[i]? = some a →
      (cumsum acc l)[i + 1]? = (l[i + 1]?).map (a + ·) := by
  induction l with
  | nil => intro acc i a ha; simp [cumsum] at ha
  | cons x rest ih =>
      intro acc i a ha
      cases i with
      | zero =>
          simp only [cumsum, List.getElem?_cons_zero, Option.some.injEq] at ha
          subst ha
          simp [cumsum, cumsum_getElem?_zero]
      | succ i =>
          simp only [cumsum, List.getElem?_cons_succ] at ha ⊢
          exact ih (acc + x) i a ha

lemma cumsum_chain (l : List ℕ) : ∀ acc : ℕ, List.Chain' (· ≤ ·) (cumsum acc l) := by
  induction l with
  | nil => intro acc; simp [cumsum]
  | cons x rest ih =>
      intro acc
      rw [cumsum, List.chain'_cons']
      refine ⟨?_, ih (acc + x)⟩
      intro b hb
      cases rest with
      | nil => simp [cumsum] at hb
      | cons y rest2 =>
          simp [cumsum] at hb
          omega

lemma cumsum_mono (l : List ℕ) (acc i j a b : ℕ) (hij : i ≤ j)
    (ha : (cumsum acc l)[i]? = some a) (hb : (cumsum acc l)[j]? = some b) :
    a ≤ b := by
  rcases Nat.eq_or_lt_of_le hij with heq | hlt
  · subst heq
    rw [ha] at hb
    exact le_of_eq (Option.some.inj hb)
  · have hpair := (List.chain'_iff_pairwise.mp (cumsum_chain l acc))
    rcases List.getElem?_eq_some_iff.mp ha with ⟨hi, hga⟩
    rcases List.getElem?_eq_some_iff.mp hb with ⟨hj, hgb⟩
    have := List.pairwise_iff_getElem.mp hpair i j hi hj hlt
    rw [hga, hgb] at this
    exact this

lemma blink_events_getElem?_succ (frames : List EyeFrame) (i : ℕ)
    (p c : EyeFrame) (hp : frames[i]? = some p) (hc : frames[i + 1]? = some c) :
    (blink_events frames)[i + 1]? =
      some (if c.is_blinking && !p.is_blinking then 1 else 0) := by
  cases frames with
  | nil => simp at hp
  | cons f tail =>
      have htail : tail[i]? = some c := by simpa using hc
      simp only [blink_events, List.getElem?_cons_succ, List.getElem?_map,
        zip_getElem?, hp, htail, Option.bind_some, Option.map_some]
      rfl

/-- C9: blink_count is non-decreasing along the frame sequence, and between
consecutive frames it increases by exactly 1 when is_blinking rises from
false to true and is unchanged otherwise - so a sustained blink over several
consecutive frames is counted exactly once, at its onset. -/
theorem blink_count_monotone (frames : List EyeFrame) :
    (∀ (i j a b : ℕ), i ≤ j → (blink_count frames)[i]? = some a →
        (blink_count frames)[j]? = some b → a ≤ b) ∧
      (∀ (i : ℕ) (p c : EyeFrame) (a b : ℕ),
        frames[i]? = some p → frames[i + 1]? = some c →
        (blink_count frames)[i]? = some a → (blink_count frames)[i + 1]? = some b →
        b = if c.is_blinking && !p.is_blinking then a + 1 else a) := by
  constructor
  · intro i j a b hij ha hb
    exact cumsum_mono (blink_events frames) 0 i j a b hij ha hb
  · intro i p c a b hp hc ha hb
    have hev := blink_events_getElem?_succ frames i p c hp hc
    have hnext := cumsum_getElem?_succ (blink_events frames) 0 i a ha
    have hb2 : ((blink_events frames)[i + 1]?).map (a + ·) = some b := by
      rw [← hnext]
      exact hb
    rw [hev] at hb2
    by_cases hedge : (c.is_blinking && !p.is_blinking) = true
    · simp [hedge] at hb2 ⊢
      omega
    · simp [hedge] at hb2 ⊢
      omega

/-- Witness for C9: frames with blink flags [false, true, true]; the count
rises to 1 at the onset (index 1) and stays 1 at index 2. -/
theorem blink_count_monotone_witness :
    (([frameAt false 0, frameAt true 0, frameAt true 0] : List EyeFrame)[0]? =
        some (frameAt false 0)) ∧
      (([frameAt false 0, frameAt true 0, frameAt true 0] : List EyeFrame)[1]? =
        some (frameAt true 0)) ∧
      ((blink_count [frameAt false 0, frameAt true 0, frameAt true 0])[0]? = some 0) ∧
      ((blink_count [frameAt false 0, frameAt true 0, frameAt true 0])[1]? = some 1) ∧
      ((1 : ℕ) =
        if (frameAt true 0).is_blinking && !(frameAt false 0).is_blinking then 0 + 1
        else 0) :=
  ⟨rfl, rfl, rfl, rfl,
    (blink_count_monotone [frameAt false 0, frameAt true 0, frameAt true 0]).2
      0 (frameAt false 0) (frameAt true 0) 0 1 rfl rfl rfl rfl⟩

/-! ## Frame effects of the metrics functions (C4)

Python passes DataFrames by reference: a function mutates its caller's frame
exactly when it assigns columns without first rebinding its local name to a
copy (`df = df.copy()`).  Each function below is embedded over a column-level
frame as `DF → DF × result`; the FIRST component is the state of the
caller's object after the call.  compute_velocity, compute_acceleration and
compute_distance_traveled copy first, so every column assignment in their
bodies lands on the copy (the second component); time_binned_statistics does
not copy and assigns df['time_bin'] directly to the caller's frame.

Cells are exact symbolic values so the irrational-valued columns are carried
exactly: `sqrtNum q` is the square root of q (speed, acceleration magnitude,
segment distance), `atan2deg y x` is degrees(atan2(y, x)) (direction), and
`cumVal b qs` is b plus the sum of the square roots of qs (cumulative
distance after fillna(0).cumsum()).  `nan` is a missing/NaN cell.
-/

inductive Cell where
  | nan
  | num (q : ℚ)
  | sqrtNum (q : ℚ)
  | atan2deg (y x : ℚ)
  | cumVal (base : ℚ) (qs : List ℚ)
deriving DecidableEq

/-- A column of cells. -/
abbrev Col := List Cell

/-- A frame: named columns in order (pandas keeps insertion order). -/
abbrev DF := List (String × Col)

/-- Look a column up (a genuinely missing column would raise KeyError in
pandas before any mutation; the claims only concern frames carrying the
columns the functions read, so the default [] is never material). -/
def DF.getCol (df : DF) (name : String) : Col :=
  ((df.find? fun p => decide (p.1 = name)).map Prod.snd).getD []

/-- Column presence test (`name in df.columns`). -/
def DF.hasCol (df : DF) (name : String) : Bool :=
  (df.find? fun p => decide (p.1 = name)).isSome

/-- df[name] = col: replace an existing column in place, else append the new
column at the end (pandas column insertion order). -/
def DF.setCol : DF → String → Col → DF
  | [], name, col => [(name, col)]
  | (m, c0) :: rest, name, col =>
      if m = name then (name, col) :: rest
      else (m, c0) :: DF.setCol rest name col

/-- Number of rows of the frame (columns of a well-formed frame all have the
same length). -/
def DF.nRows (df : DF) : ℕ :=
  match df with
  | [] => 0
  | (_, c) :: _ => c.length

/-- Difference of two cells: numeric minus numeric, NaN otherwise (a NaN
operand poisons; the source only ever diffs numeric columns). -/
def cellSub : Cell → Cell → Cell
  | .num a, .num b => .num (a - b)
  | _, _ => .nan

/-- Column .diff(): NaN first, then elementwise current minus previous. -/
def colDiff (c : Col) : Col :=
  match c with
  | [] => []
  | _ :: tail => .nan :: ((tail.zip c).map fun p => cellSub p.1 p.2)

/-- The np.where mask dt > 0: false on NaN. -/
def cellPos : Cell → Bool
  | .num q => decide (0 < q)
  | _ => false

/-- One element of np.where(dt > 0, dx / dt, 0). -/
def cellDivOr0 (dt dx : Cell) : Cell :=
  if cellPos dt then
    match dx, dt with
    | .num a, .num b => .num (a / b)
    | _, _ => .nan
  else .num 0

/-- One element of sqrt(a ** 2 + b ** 2). -/
def cellHypot : Cell → Cell → Cell
  | .num a, .num b => .sqrtNum (a ^ 2 + b ^ 2)
  | _, _ => .nan

/-- One element of np.degrees(np.arctan2(vy, vx)). -/
def cellAtan2deg : Cell → Cell → Cell
  | .num a, .num b => .atan2deg a b
  | _, _ => .nan

/-- .fillna(0). -/
def fillna0 (c : Col) : Col :=
  c.map fun cell => match cell with | .nan => .num 0 | other => other

/-- .cumsum() over a column of numeric and square-root cells (the
segment_distance column after fillna(0)); the running sum is (base, list of
radicands); any other cell shape poisons the rest of the column with NaN,
matching NaN propagation of a real cumulative sum. -/
def cumsumCol : Option (ℚ × List ℚ) → Col → Col
  | _, [] => []
  | none, _ :: rest => .nan :: cumsumCol none rest
  | some st, c :: rest =>
      match c with
      | .num q => .cumVal (st.1 + q) st.2 :: cumsumCol (some (st.1 + q, st.2)) rest
      | .sqrtNum r => .cumVal st.1 (st.2 ++ [r]) :: cumsumCol (some (st.1, st.2 ++ [r])) rest
      | _ => .nan :: cumsumCol none rest

/-- compute_velocity of metrics.py at frame level, as
(caller's frame after the call, returned frame).  The body starts with
`df = df.copy()`, so all four column assignments target the copy and the
caller's frame is returned unchanged. -/
def compute_velocity_df (df : DF) (x_col y_col time_col : String) : DF × DF :=
  let c0 := df
  let dt := colDiff (c0.getCol time_col)
  let dx := colDiff (c0.getCol x_col)
  let dy := colDiff (c0.getCol y_col)
  let c1 := c0.setCol "velocity_x" (List.zipWith cellDivOr0 dt dx)
  let c2 := c1.setCol "velocity_y" (List.zipWith cellDivOr0 dt dy)
  let c3 := c2.setCol "speed"
    (List.zipWith cellHypot (c2.getCol "velocity_x") (c2.getCol "velocity_y"))
  let c4 := c3.setCol "direction"
    (List.zipWith cellAtan2deg (c3.getCol "velocity_y") (c3.getCol "velocity_x"))
  (df, c4)

/-- compute_acceleration of metrics.py at frame level (copies first, then
assigns acceleration_x, acceleration_y, acceleration_magnitude on the
copy). -/
def compute_acceleration_df (df : DF)
    (velocity_x_col velocity_y_col time_col : String) : DF × DF :=
  let c0 := df
  let dt := colDiff (c0.getCol time_col)
  let dvx := colDiff (c0.getCol velocity_x_col)
  let dvy := colDiff (c0.getCol velocity_y_col)
  let c1 := c0.setCol "acceleration_x" (List.zipWith cellDivOr0 dt dvx)
  let c2 := c1.setCol "acceleration_y" (List.zipWith cellDivOr0 dt dvy)
  let c3 := c2.setCol "acceleration_magnitude"
    (List.zipWith cellHypot (c2.getCol "acceleration_x") (c2.getCol "acceleration_y"))
  (df, c3)

/-- compute_distance_traveled of metrics.py at frame level (copies first,
then assigns segment_distance and cumulative_distance on the copy). -/
def compute_distance_traveled_df (df : DF) (x_col y_col : String) : DF × DF :=
  let c0 := df
  let dx := colDiff (c0.getCol x_col)
  let dy := colDiff (c0.getCol y_col)
  let c1 := c0.setCol "segment_distance" (List.zipWith cellHypot dx dy)
  let c2 := c1.setCol "cumulative_distance"
    (cumsumCol (some (0, [])) (fillna0 (c1.getCol "segment_distance")))
  (df, c2)

/-- Frame effect of session_statistics of metrics.py: its body only reads the
frame (len, max, min, mean, median accessors); it contains no column
assignment, so the caller's frame after the call is the argument.  Its
returned statistics dict is embedded at row level by `session_statistics`
above. -/
def session_statistics_state (df : DF) : DF := df

/-- np.arange(0, stop, step) for positive step. -/
def arangeQ (stop step : ℚ) : List ℚ :=
  (List.range (Int.toNat ⌈stop / step⌉)).map fun k => (k : ℚ) * step

/-- The label of pd.cut(t, bins, labels = bins[:-1], include_lowest = True)
for a number t: the left edge a of the first interval (a, b] containing t,
with the very first interval closed below ([a, b]). -/
def cutFind : Bool → List ℚ → ℚ → Option ℚ
  | _, [], _ => none
  | _, [_], _ => none
  | first, a :: b :: rest, t =>
      if t ≤ b ∧ (a < t ∨ (first ∧ a ≤ t)) then some a
      else cutFind false (b :: rest) t

/-- Values of the numeric cells of a column (pandas skipna). -/
def colNums (c : Col) : List ℚ :=
  c.filterMap fun cell => match cell with | .num q => some q | _ => none

/-- The bin edges np.arange(0, max_time + bin_size_sec, bin_size_sec) of
time_binned_statistics (an all-NaN time column would make the source fail
inside np.arange; modeled as no bins). -/
def timeBins (df : DF) (bin_size : ℚ) : List ℚ :=
  match qMax (colNums (df.getCol "time_delta_sec")) with
  | none => []
  | some m => arangeQ (m + bin_size) bin_size

/-- The time_bin column that pd.cut assigns: one label cell per row of the
time column (NaN for a NaN time or a time outside every bin). -/
def timeBinColumn (df : DF) (bin_size : ℚ) : Col :=
  (df.getCol "time_delta_sec").map fun cell =>
    match cell with
    | .num t => ((cutFind true (timeBins df bin_size) t).map Cell.num).getD .nan
    | _ => .nan

/-- The groupby('time_bin') structure of the result of
time_binned_statistics: for each bin label, in bin order, the row indices
falling in that bin, together with the statistic columns present in the
frame.  The returned table has one row per label and, for each such column c,
the columns c_mean, c_std, c_min, c_max, c_count: real-valued reductions of
the cells of c at those row indices (empty bins are kept, with NaN aggregates
and count 0). -/
structure TimeBinnedResult where
  cols : List String
  groups : List (ℚ × List ℕ)
deriving DecidableEq

/-- time_binned_statistics of metrics.py at frame level, as (caller's frame
after the call, result).  The early return (empty frame or missing time
column) performs no assignment; otherwise df['time_bin'] = pd.cut(...) is
assigned WITHOUT a prior copy, mutating the caller's frame; `none` embeds the
early-returned empty frame. -/
def time_binned_statistics (df : DF) (bin_size : ℚ) (stat_cols : List String) :
    DF × Option TimeBinnedResult :=
  if df = [] ∨ DF.nRows df = 0 ∨ ¬ DF.hasCol df "time_delta_sec" then (df, none)
  else
    let binCol := timeBinColumn df bin_size
    let mutated := df.setCol "time_bin" binCol
    (mutated,
      some
        { cols := stat_cols.filter fun c => DF.hasCol df c
          groups := (timeBins df bin_size).dropLast.map fun b =>
            (b, (List.range (DF.nRows df)).filter fun i =>
              decide (binCol[i]? = some (.num b))) })

/-- C4 amended: compute_velocity, compute_acceleration,
compute_distance_traveled and session_statistics leave the caller's frame
unchanged (the first three copy before assigning, the fourth only reads);
time_binned_statistics, however, leaves the frame unchanged only on its
early-return path - otherwise it adds the time_bin column to the CALLER's
frame (it assigns without copying), mutating its input. -/
theorem frame_effects (df : DF) (xc yc tc vxc vyc : String) (bs : ℚ)
    (stat_cols : List String) :
    (compute_velocity_df df xc yc tc).1 = df ∧
      (compute_acceleration_df df vxc vyc tc).1 = df ∧
      (compute_distance_traveled_df df xc yc).1 = df ∧
      session_statistics_state df = df ∧
      (time_binned_statistics df bs stat_cols).1 =
        (if df = [] ∨ DF.nRows df = 0 ∨ ¬ DF.hasCol df "time_delta_sec" then df
         else df.setCol "time_bin" (timeBinColumn df bs)) := by
  refine ⟨rfl, rfl, rfl, rfl, ?_⟩
  rw [time_binned_statistics]
  by_cases h : df = [] ∨ DF.nRows df = 0 ∨ ¬ DF.hasCol df "time_delta_sec"
  · rw [if_pos h, if_pos h]
  · rw [if_neg h, if_neg h]

/-- The concrete frame of the C4 counterexample: two rows, a time column and
a speed column. -/
def dfExample : DF :=
  [("time_delta_sec", [.num 0, .num 2]),
   ("speed", [.nan, .sqrtNum 25])]

/-- Counterexample for C4 as stated: calling time_binned_statistics on
dfExample changes the caller's frame: afterwards it carries a time_bin
column (row 0 falls in the bin labeled 0, row 1 in the bin labeled 1), so
not every listed operation leaves its input unchanged. -/
theorem time_binned_mutates_input :
    (time_binned_statistics dfExample 1 ["speed", "acceleration_magnitude"]).1 =
        dfExample ++ [("time_bin", [.num 0, .num 1])] ∧
      (time_binned_statistics dfExample 1 ["speed", "acceleration_magnitude"]).1 ≠
        dfExample := by
  have hget : DF.getCol dfExample "time_delta_sec" = [.num 0, .num 2] := rfl
  have hmax : qMax (colNums (DF.getCol dfExample "time_delta_sec")) = some 2 := by
    rw [hget]
    norm_num [colNums, qMax, List.filterMap_cons, max_def]
  have h3 : Int.toNat ⌈((2 : ℚ) + 1) / 1⌉ = 3 := by
    have hceil : ⌈((2 : ℚ) + 1) / 1⌉ = 3 := by norm_num
    rw [hceil]
    rfl
  have hbins : timeBins dfExample 1 = [0, 1, 2] := by
    simp only [timeBins, hmax]
    rw [arangeQ, h3]
    norm_num [List.range_succ]
  have hcol : timeBinColumn dfExample 1 = [.num 0, .num 1] := by
    rw [timeBinColumn, hbins, hget]
    norm_num [cutFind]
  have hcond : ¬ (dfExample = [] ∨ DF.nRows dfExample = 0 ∨
      ¬ DF.hasCol dfExample "time_delta_sec") := by decide
  have h1 : (time_binned_statistics dfExample 1 ["speed", "acceleration_magnitude"]).1 =
      DF.setCol dfExample "time_bin" (timeBinColumn dfExample 1) := by
    rw [time_binned_statistics, if_neg hcond]
  have h2 : (time_binned_statistics dfExample 1 ["speed", "acceleration_magnitude"]).1 =
      dfExample ++ [("time_bin", [.num 0, .num 1])] := by
    rw [h1, hcol]
    decide
  refine ⟨h2, ?_⟩
  rw [h2]
  intro hcontra
  have := congrArg List.length hcontra
  simp [dfExample] at this

end Savant
